import Mathlib

/-!
Shallow embedding of the crash-triage excerpt:
`src/angr/exploration_techniques/crash_monitor.py` (the `CrashMonitor`
exploration technique) and `src/pysex/s_arch.py` (the subroutine-return
emulator).  The symbolic execution engine, the inspect/breakpoint plugin
and the preconstrainer are external collaborators; they are modelled by a
record of oracle functions (`Engine`) plus explicit state fields for the
attributes the excerpt reads and writes.  Python exceptions are modelled
with `Except PyErr`; an in-place attribute assignment becomes a functional
record update threaded through the model.
-/

set_option autoImplicit false

/-- Python exception classes that the modelled code can raise. -/
inductive PyErr where
  | nameError
  | indexError
  | attributeError
  | valueError
deriving DecidableEq

/-- The two crash classifications of the monitor: the module-level strings
`EXEC_STACK = 'EXEC_STACK'` and `QEMU_CRASH = 'SEG_FAULT'`. -/
inductive CrashType where
  | EXEC_STACK
  | QEMU_CRASH
deriving DecidableEq

/-- Breakpoint kinds used by the excerpt: the `state_step` breakpoint
installed by `setup`, and the two `address_concretization` breakpoints
(`BP_BEFORE` and `BP_AFTER`) installed by `_crash_windup`. -/
inductive BPEvent where
  | stateStep
  | addrConcBefore
  | addrConcAfter
deriving DecidableEq

/-- A claripy AST for an address: an identity plus its set of free symbolic
variable names (`expr.variables`, a set of strings in claripy; `variables`
is a reserved token in Lean, hence the field name `varNames`). -/
structure AExpr where
  id : Nat
  varNames : List String
deriving DecidableEq

/-- The `state.inspect` attributes read by the concretization hooks:
`address_concretization_expr` and `address_concretization_result`
(the result is `None` before resolution or when resolution failed). -/
structure InspectState where
  address_concretization_expr : AExpr
  address_concretization_result : Option (List Nat)
deriving DecidableEq

/-- One entry of `state.preconstrainer._constrained_addrs`: the excerpt reads
only `action.addr.variables`. -/
structure ConstrainedAction where
  addrVariables : List String
deriving DecidableEq

/-- The preconstrainer plugin attributes used by the excerpt:
`_constrained_addrs`, `address_concretization` (the list of
(expression, concrete candidates) pairs the windup loop iterates), and the
effects of `remove_preconstraints()` / `reconstrain()`, modelled as flags
since their internals live outside the excerpt. -/
structure Preconstrainer where
  constrained_addrs : List ConstrainedAction
  address_concretization : List (AExpr × List Nat)
  preconstraints_removed : Bool
  reconstrained : Bool
deriving DecidableEq

/-- A path constraint added by `state.add_constraints(var == value)`:
an equality between an address expression and a concrete value. -/
inductive SimConstraint where
  | eq (lhs : AExpr) (rhs : Nat)
deriving DecidableEq

/-- One symbolic execution state, restricted to the attributes the excerpt
touches: `globals['bb_cnt']`, the symbolicity of `memory.load(ip, ip.length)`,
`block().instruction_addrs`, the inspect breakpoints and inspect attributes,
the path constraints, the preconstrainer plugin, and the effect of
`history.trim()`. -/
structure SimState where
  bb_cnt : Nat
  ipMemSymbolic : Bool
  blockInstAddrs : List Nat
  breakpoints : List BPEvent
  constraints : List SimConstraint
  preconstrainer : Preconstrainer
  inspect : InspectState
  historyTrimmed : Bool
deriving DecidableEq

/-- `state.inspect.b(event, ...)`: registers a breakpoint (appended to the
event's breakpoint list; the returned handle is the breakpoint itself). -/
def SimState.inspect_b (s : SimState) (bp : BPEvent) : SimState :=
  { s with breakpoints := s.breakpoints ++ [bp] }

/-- Removal of the first matching breakpoint from a breakpoint list
(`inspect.remove_breakpoint(event, bp)` removes the given handle). -/
def removeBpList : List BPEvent → BPEvent → List BPEvent
  | [], _ => []
  | b :: rest, e => if b = e then rest else b :: removeBpList rest e

/-- `state.inspect.remove_breakpoint(event, bp)` on the model state. -/
def SimState.remove_breakpoint (s : SimState) (bp : BPEvent) : SimState :=
  { s with breakpoints := removeBpList s.breakpoints bp }

/-- `state.add_constraints(var == value)`: appends one equality constraint. -/
def SimState.add_constraints (s : SimState) (c : SimConstraint) : SimState :=
  { s with constraints := s.constraints ++ [c] }

/-- The simulation manager: the `active` stash plus the named stash
dictionary.  Python lists can hold `None`, so stashed entries are
`Option SimState` (the crashed stash stores `self._crash_state`, which is
`Optional`). -/
structure SimGr where
  active : List SimState
  stashes : List (String × List (Option SimState))
deriving DecidableEq

/-- Replace (or insert) the binding of key `k` in a stash dictionary. -/
def setStash (st : List (String × List (Option SimState))) (k : String)
    (v : List (Option SimState)) : List (String × List (Option SimState)) :=
  (st.filter (fun p => ¬ (p.1 = k))) ++ [(k, v)]

/-- Look up a stash by name. -/
def getStash (st : List (String × List (Option SimState))) (k : String) :
    Option (List (Option SimState)) :=
  (st.find? (fun p => p.1 = k)).map (fun p => p.2)

/-- The value of one hexadecimal digit character, if any. -/
def hexDigitVal? (c : Char) : Option Nat :=
  if c.isDigit then some (c.toNat - 48)
  else if ('a' ≤ c && c ≤ 'f') then some (c.toNat - 87)
  else if ('A' ≤ c && c ≤ 'F') then some (c.toNat - 55)
  else none

/-- Value of a non-empty all-hex-digit character list. -/
def hexDigitsVal? (cs : List Char) : Option Nat :=
  match cs with
  | [] => none
  | _ =>
    cs.foldl (fun acc c => acc.bind (fun n => (hexDigitVal? c).map (fun d => n * 16 + d)))
      (some 0)

/-- Python `int(s, 16)`: optional sign, optional `0x`/`0X`, then hex digits;
anything else raises `ValueError`.  (CPython additionally allows surrounding
whitespace and underscores between digits; those forms do not occur in the
variable names this code parses.) -/
def pyIntHex (s : String) : Except PyErr Int :=
  let cs := s.data
  let signAndRest : Int × List Char :=
    match cs with
    | '-' :: rest => (-1, rest)
    | '+' :: rest => (1, rest)
    | _ => (1, cs)
  let cs2 : List Char :=
    match signAndRest.2 with
    | '0' :: 'x' :: rest => rest
    | '0' :: 'X' :: rest => rest
    | _ => signAndRest.2
  match hexDigitsVal? cs2 with
  | some n => Except.ok (signAndRest.1 * n)
  | none => Except.error PyErr.valueError

/-- Python `v.startswith(pre)` (the built-in `String.startsWith` does not
reduce in the kernel, so the comparison is spelled on the character lists). -/
def strStartsWith (v pre : String) : Bool :=
  pre.data.isPrefixOf v.data

/-- Split a character list at every occurrence of the separator character,
Python `str.split` style: `"a_b" -> ["a", "b"]`, keeping empty pieces. -/
def splitOnChar (c : Char) : List Char → List (List Char)
  | [] => [[]]
  | x :: rest =>
    if x = c then [] :: splitOnChar c rest
    else
      match splitOnChar c rest with
      | [] => [[x]]
      | h :: t => (x :: h) :: t

/-- Python `y.split("_")` for the one-character separator used here. -/
def pySplitUnderscore (y : String) : List String :=
  (splitOnChar '_' y.data).map (fun l => String.mk l)

/-- `CrashMonitor._to_indices(variables)`: keep the variables whose name
starts with `file_/dev/stdin`, take field 3 of the underscore-split name
(raising `IndexError` when there are fewer than 4 fields), parse it as hex
(raising `ValueError` on malformed text), and sort the results. -/
def CrashMonitor.to_indices (varNames : List String) : Except PyErr (List Int) := do
  let vs := varNames.filter (fun v => strStartsWith v "file_/dev/stdin")
  let indices ← vs.mapM (fun y => do
    let parts := pySplitUnderscore y
    match parts.get? 3 with
    | none => Except.error PyErr.indexError
    | some p => pyIntHex p)
  Except.ok (indices.insertionSort (fun a b => a ≤ b))

/-- `CrashMonitor._add_constraints(state)`.  The source computes
`hit_indices = CrashMonitor._to_indices(variables)` (which can itself raise)
and then loops over `state.preconstrainer._constrained_addrs`.  The loop body
begins with `self._to_indices(...)`, but `self` is an undefined name inside
this static method, so the first iteration raises `NameError`; with no
registered constrained address the loop body never runs and the function
returns `False`.  Consequently the function can never return `True`. -/
def CrashMonitor.add_constraints (state : SimState) : Except PyErr Bool := do
  let _hit_indices ←
    CrashMonitor.to_indices state.inspect.address_concretization_expr.varNames
  match state.preconstrainer.constrained_addrs with
  | [] => Except.ok false
  | _ :: _ => Except.error PyErr.nameError

/-- `CrashMonitor._dont_add_constraints(state)` (the `BP_BEFORE` hook): it
assigns `state.inspect.address_concretization_add_constraints =
CrashMonitor._add_constraints(state)`.  The assignment lands on the engine
state that fired the hook; the model returns the assigned flag (or the
exception raised while computing it). -/
def CrashMonitor.dont_add_constraints (state : SimState) : Except PyErr Bool :=
  CrashMonitor.add_constraints state

/-- `CrashMonitor._grab_concretization_results(state)` (the `BP_AFTER` hook).
`recorded` stands for the recording list the hook is meant to append to
(`self.address_concretization` in the source).  The hook appends only when
`CrashMonitor._add_constraints(state)` returns `True` and the resolution
result is not `None`; on that path the source evaluates
`self.address_concretization`, and `self` is an undefined name inside this
static method, so the append raises `NameError` instead of recording. -/
def CrashMonitor.grab_concretization_results (recorded : List (AExpr × List Nat))
    (state : SimState) : Except PyErr (List (AExpr × List Nat)) := do
  let matched ← CrashMonitor.add_constraints state
  if matched then
    match state.inspect.address_concretization_result with
    | none => Except.ok recorded
    | some _ => Except.error PyErr.nameError
  else
    Except.ok recorded

/-- Per-step observations the engine reports for one stepping operation:
the `address_concretization` events fired while executing (in encounter
order), the states handed to the `state_step` action after the step, and the
successor buckets (`flat_successors` and `unconstrained_successors`). -/
structure StepObs where
  events : List InspectState
  hookStates : List SimState
  flat : List SimState
  unconstrained : List SimState

/-- The external symbolic execution engine, as an oracle record:
`simgrStepFn`/`simgrHookStates` describe `simgr.step()`, `fullStep` describes
`state.step()` with no instruction bound, `numInstStep` describes
`state.step(num_inst=n)`, and `satisfiable` is `s.se.satisfiable()`.
Successor states inherit the stepped state's breakpoint list (the inspect
plugin is copied to successors); the model enforces that when it builds
successors from the oracle's raw states. -/
structure Engine where
  simgrStepFn : SimGr → SimGr
  simgrHookStates : SimGr → List SimState
  fullStep : SimState → StepObs
  numInstStep : SimState → Nat → StepObs
  satisfiable : SimState → Bool

/-- The `CrashMonitor` instance state: the constructor arguments, the
mutable attributes `last_state`, `_crash_type`, `_crash_state`, and a ghost
counter of `_crash_windup` invocations (not present in the source; it is
threaded through successful returns so execution-count properties can be
stated). -/
structure CrashMonitor where
  trace : List Nat
  trim_history : Bool
  crash_mode : Bool
  crash_addr : Option Nat
  last_state : Option SimState
  crash_type : Option CrashType
  crash_state : Option SimState
  windup_count : Nat
deriving DecidableEq

/-- `CrashMonitor.__init__(trace, trim_history, crash_mode, crash_addr)`. -/
def CrashMonitor.init (trace : List Nat) (trim_history : Bool) (crash_mode : Bool)
    (crash_addr : Option Nat) : CrashMonitor :=
  { trace := trace, trim_history := trim_history, crash_mode := crash_mode,
    crash_addr := crash_addr, last_state := none, crash_type := none,
    crash_state := none, windup_count := 0 }

/-- `CrashMonitor._check_stack(state)`: if the memory at the instruction
pointer is symbolic, classify `EXEC_STACK` and capture the state. -/
def CrashMonitor.check_stack (m : CrashMonitor) (state : SimState) : CrashMonitor :=
  if state.ipMemSymbolic then
    { m with crash_type := some CrashType.EXEC_STACK, crash_state := some state }
  else m

/-- Fire the `state_step` `BP_AFTER` action on each state the engine reports
for a stepping operation; the action only runs on states that carry the
`state_step` breakpoint (installed by `setup` and inherited by successors). -/
def fireSimgrHookStates (m : CrashMonitor) (hs : List SimState) : CrashMonitor :=
  hs.foldl
    (fun acc s =>
      if BPEvent.stateStep ∈ s.breakpoints then CrashMonitor.check_stack acc s else acc)
    m

/-- Fire the two `address_concretization` hooks for each event reported for a
step of state `s`, in encounter order.  Each hook runs only when its
breakpoint is registered on the stepped state; the state passed to a hook is
the executing copy of `s` with the event's inspect attributes.  The recording
list handed to the `BP_AFTER` hook is irrelevant: the hook never appends (its
append raises), so the empty list is passed and the result discarded. -/
def fireConcEvents (s : SimState) : List InspectState → Except PyErr Unit
  | [] => Except.ok ()
  | ev :: rest =>
    let fs := { s with inspect := ev }
    let r1 : Except PyErr Unit :=
      if BPEvent.addrConcBefore ∈ s.breakpoints then
        (CrashMonitor.dont_add_constraints fs).map (fun _ => ())
      else Except.ok ()
    match r1 with
    | Except.error e => Except.error e
    | Except.ok _ =>
      let r2 : Except PyErr Unit :=
        if BPEvent.addrConcAfter ∈ s.breakpoints then
          (CrashMonitor.grab_concretization_results [] fs).map (fun _ => ())
        else Except.ok ()
      match r2 with
      | Except.error e => Except.error e
      | Except.ok _ => fireConcEvents s rest

/-- All hook side effects of one `state.step(...)` call on state `s`:
the concretization events fire during execution (possibly raising), then the
`state_step` action observes the stepped states. -/
def fireStepHooks (m : CrashMonitor) (s : SimState) (obs : StepObs) :
    Except PyErr CrashMonitor :=
  match fireConcEvents s obs.events with
  | Except.error e => Except.error e
  | Except.ok _ => Except.ok (fireSimgrHookStates m obs.hookStates)

/-- `CrashMonitor.setup(simgr)`: install the `state_step` `BP_AFTER`
breakpoint on `simgr.active[0]` (raising `IndexError` when there is no
active state). -/
def CrashMonitor.setup (g : SimGr) : Except PyErr SimGr :=
  match g.active with
  | [] => Except.error PyErr.indexError
  | s :: rest => Except.ok { g with active := s.inspect_b BPEvent.stateStep :: rest }

/-- The `history.trim()` performed by `step` when `trim_history` is set and
the run is not in crash mode. -/
def CrashMonitor.trimmedState (m : CrashMonitor) (s : SimState) : SimState :=
  if m.trim_history && !m.crash_mode then { s with historyTrimmed := true } else s

/-- The monitor right after `step`'s first `simgr.step(**kwargs)` returns:
`last_state` has been set to the (possibly trimmed) single active state and
the `state_step` action has observed the stepped states. -/
def CrashMonitor.stepMid (E : Engine) (m : CrashMonitor) (g0 : SimGr) (s : SimState) :
    CrashMonitor :=
  fireSimgrHookStates { m with last_state := some s } (E.simgrHookStates g0)

/-- Result of `CrashMonitor.step`, with a ghost count of how many times
`simgr.step` was invoked during the call. -/
structure StepResult where
  simgr : SimGr
  monitor : CrashMonitor
  engineSteps : Nat

/-- `CrashMonitor.step(simgr, stash, **kwargs)`.  With exactly one active
path: record it as `last_state` (trimming its history outside crash mode),
perform one engine step, return immediately if the classification is
`EXEC_STACK`, otherwise force one extra engine step and classify
`QEMU_CRASH` when the recorded path's block counter has reached the trace
length in crash mode.  With any other number of active paths the call is a
pass-through. -/
def CrashMonitor.step (E : Engine) (m : CrashMonitor) (g : SimGr) : StepResult :=
  match g.active with
  | [s] =>
    let s' := CrashMonitor.trimmedState m s
    let g0 : SimGr := { g with active := [s'] }
    let g1 := E.simgrStepFn g0
    let m2 := CrashMonitor.stepMid E m g0 s'
    if m2.crash_type = some CrashType.EXEC_STACK then
      { simgr := g1, monitor := m2, engineSteps := 1 }
    else if m.trace.length ≤ s'.bb_cnt ∧ m.crash_mode = true then
      let m3 := fireSimgrHookStates m2 (E.simgrHookStates g1)
      let g2 := E.simgrStepFn g1
      { simgr := g2,
        monitor := { m3 with crash_type := some CrashType.QEMU_CRASH },
        engineSteps := 2 }
    else
      { simgr := g1, monitor := m2, engineSteps := 1 }
  | _ => { simgr := g, monitor := m, engineSteps := 0 }

/-- The instruction count chosen by `_crash_windup` for the precise step:
`0` for a block with no instructions, `index(crash_addr) + 1` when the crash
address is among the block's instruction addresses, and `inst_cnt - 1`
otherwise.  (`self._crash_addr in inst_addrs` is `False` when `crash_addr`
is `None`, since a Python `None` is never equal to an `int`.) -/
def windupInstCount (inst_addrs : List Nat) (crash_addr : Option Nat) : Nat :=
  if inst_addrs.length = 0 then 0
  else
    match crash_addr with
    | some a => if a ∈ inst_addrs then inst_addrs.indexOf a + 1 else inst_addrs.length - 1
    | none => inst_addrs.length - 1

/-- The loop `for var, concrete_vals in state.preconstrainer.address_concretization`
of `_crash_windup`: for each entry with at least one candidate, add the
equality constraint `var == concrete_vals[0]`, in list order. -/
def applyConcLoop (s : SimState) : List (AExpr × List Nat) → SimState
  | [] => s
  | (var, vals) :: rest =>
    match vals with
    | [] => applyConcLoop s rest
    | v :: _ => applyConcLoop (s.add_constraints (SimConstraint.eq var v)) rest

/-- The constraint-adding phase of `_crash_windup` applied to the state it
runs on: iterate that state's `preconstrainer.address_concretization`. -/
def applyConcretizationConstraints (s : SimState) : SimState :=
  applyConcLoop s s.preconstrainer.address_concretization

/-- Installation of the two `address_concretization` breakpoints at the top
of `_crash_windup` (`bp1` with `BP_BEFORE`, then `bp2` with `BP_AFTER`). -/
def installConcBreakpoints (st : SimState) : SimState :=
  (st.inspect_b BPEvent.addrConcBefore).inspect_b BPEvent.addrConcAfter

/-- Successor selection after the precise step of `_crash_windup`:
with no successor the current state is kept; with more than one flat
successor only the satisfiable ones are kept; `succs[0]` is then adopted as
the new state and stored into `last_state` (raising `IndexError` when the
satisfiability filter left nothing). -/
def windupSelectSuccessor (E : Engine) (m : CrashMonitor) (state1 : SimState)
    (succs : List SimState) : Except PyErr (CrashMonitor × SimState) :=
  if 0 < succs.length then
    match (if 1 < succs.length then succs.filter (fun x => E.satisfiable x) else succs) with
    | [] => Except.error PyErr.indexError
    | s1 :: _ => Except.ok ({ m with last_state := some s1 }, s1)
  else Except.ok (m, state1)

/-- The final `state.step()` of `_crash_windup`: fire the hooks for the step,
concatenate `flat_successors ++ unconstrained_successors` (successors inherit
the stepped state's breakpoints) and return `successors[0]`, raising
`IndexError` when there is no successor at all. -/
def windupFinalStep (E : Engine) (m : CrashMonitor) (stateC : SimState) :
    Except PyErr (CrashMonitor × SimState) :=
  match fireStepHooks m stateC (E.fullStep stateC) with
  | Except.error e => Except.error e
  | Except.ok m4 =>
    match (((E.fullStep stateC).flat ++ (E.fullStep stateC).unconstrained).map
        (fun t => { t with breakpoints := stateC.breakpoints })) with
    | [] => Except.error PyErr.indexError
    | s1 :: _ => Except.ok (m4, s1)

/-- The state after `_crash_windup`'s post-step cleanup of the adopted state:
`preconstrainer.remove_preconstraints()` and `.reconstrain()` (modelled as
flags), then removal of the two concretization breakpoints. -/
def windupCleanupState (s : SimState) : SimState :=
  (({ s with preconstrainer :=
      { s.preconstrainer with preconstraints_removed := true, reconstrained := true }
    }).remove_breakpoint BPEvent.addrConcBefore).remove_breakpoint BPEvent.addrConcAfter

/-- Cleanup plus the final full step of `_crash_windup`.  `self.last_state`
aliases the Python object the in-place cleanup mutations hit (either the
original state or the adopted successor), so after them it holds exactly the
cleaned-up state. -/
def windupCleanupAndFinalStep (E : Engine) (p : CrashMonitor × SimState) :
    Except PyErr (CrashMonitor × SimState) :=
  windupFinalStep E { p.1 with last_state := some (windupCleanupState p.2) }
    (windupCleanupState p.2)

/-- `_crash_windup` from the precise step onward, starting from the state
`state1` that already carries the concretization constraints: compute the
instruction count from `state1`'s block, perform
`state.step(num_inst=insts)`, select the successor, and run the cleanup and
the final full step. -/
def windupAfterBlockStep (E : Engine) (m : CrashMonitor) (crash_addr : Option Nat)
    (state1 : SimState) : Except PyErr (CrashMonitor × SimState) :=
  match fireStepHooks m state1
      (E.numInstStep state1 (windupInstCount state1.blockInstAddrs crash_addr)) with
  | Except.error e => Except.error e
  | Except.ok m2 =>
    match windupSelectSuccessor E m2 state1
        ((E.numInstStep state1 (windupInstCount state1.blockInstAddrs crash_addr)).flat.map
          (fun t => { t with breakpoints := state1.breakpoints })) with
    | Except.error e => Except.error e
    | Except.ok p => windupCleanupAndFinalStep E p

/-- `CrashMonitor._crash_windup()`.  Raises `AttributeError` when
`last_state` is still `None` (stepping `None` fails).  Otherwise: install the
two concretization breakpoints, run one full block step (its successors are
discarded; only the breakpoint side effects matter and the original state
object is not mutated by stepping), add the recorded concretization
constraints, and continue with `windupAfterBlockStep`.  The ghost
`windup_count` is incremented on entry. -/
def CrashMonitor.crash_windup (E : Engine) (m : CrashMonitor) :
    Except PyErr (CrashMonitor × SimState) :=
  match m.last_state with
  | none => Except.error PyErr.attributeError
  | some st =>
    let mrun := { m with windup_count := m.windup_count + 1 }
    let state0 := installConcBreakpoints st
    match fireStepHooks mrun state0 (E.fullStep state0) with
    | Except.error e => Except.error e
    | Except.ok m1 =>
      windupAfterBlockStep E m1 m.crash_addr (applyConcretizationConstraints state0)

/-- `CrashMonitor.complete(simgr)`.  With no classification it returns
`False`.  With a classification: when it is `QEMU_CRASH` the logging call
evaluates `self._trace[-1]` eagerly (raising `IndexError` on an empty
trace) and `_crash_windup` recovers the crash state; the crashed stash is
then set to the one-element list `[self._crash_state]` and `True` is
returned. -/
def CrashMonitor.complete (E : Engine) (m : CrashMonitor) (g : SimGr) :
    Except PyErr (Bool × CrashMonitor × SimGr) :=
  match m.crash_type with
  | none => Except.ok (false, m, g)
  | some ct =>
    let branch : Except PyErr CrashMonitor :=
      if ct = CrashType.QEMU_CRASH then
        match m.trace.getLast? with
        | none => Except.error PyErr.indexError
        | some _ =>
          match CrashMonitor.crash_windup E m with
          | Except.error e => Except.error e
          | Except.ok (m1, st) => Except.ok { m1 with crash_state := some st }
      else Except.ok m
    match branch with
    | Except.error e => Except.error e
    | Except.ok m2 =>
      Except.ok (true, m2, { g with stashes := setStash g.stashes "crashed" [m2.crash_state] })

/-- The `SymbolicArchError` exception of `s_arch.py`. -/
structure SymbolicArchError where
  msg : String
deriving DecidableEq

/-- The collaborators of `SymbolicAMD64.emulate_subroutine`: `pyvex.IRSB`,
`s_irsb.SymbolicIRSB`, `state.copy_after()` and `.exits()`, as abstract oracle
functions over identifiers. -/
structure SArch where
  mkIRSB : String → Int → String → Nat
  symbolicIRSB : Nat → Nat → Nat
  copyAfter : Nat → Nat
  exitsOf : Nat → List Nat

/-- An instruction mark: `call_imark.addr`. -/
structure IMark where
  addr : Nat

/-- The exits produced by emulating the injected `ret` instruction
(`\xc3`) for a call at `call_imark.addr` on a copy of `state`. -/
def retExits (A : SArch) (call_imark : IMark) (state : Nat) : List Nat :=
  A.exitsOf (A.symbolicIRSB (A.mkIRSB "\xc3" (-(call_imark.addr : Int)) "VexArchAMD64")
    (A.copyAfter state))

/-- `SymbolicAMD64.emulate_subroutine(call_imark, state)`: raise
`SymbolicArchError` when the number of exits differs from one, otherwise
return `exits[0]`.  The raise is not caught in this layer, which the
`Except` return models: there is no recovery path. -/
def emulate_subroutine (A : SArch) (call_imark : IMark) (state : Nat) :
    Except SymbolicArchError Nat :=
  let exits := retExits A call_imark state
  if h : exits.length = 1 then
    Except.ok (exits.get ⟨0, by omega⟩)
  else
    Except.error { msg := "Return has more than one exit. This is unsupported." }

/-- A preconstrainer with nothing registered. -/
def basePre : Preconstrainer :=
  { constrained_addrs := [], address_concretization := [],
    preconstraints_removed := false, reconstrained := false }

/-- Inspect attributes with a trivial expression and no resolution result. -/
def baseInspect : InspectState :=
  { address_concretization_expr := { id := 0, varNames := [] },
    address_concretization_result := none }

/-- A minimal concrete engine state. -/
def baseState : SimState :=
  { bb_cnt := 0, ipMemSymbolic := false, blockInstAddrs := [], breakpoints := [],
    constraints := [], preconstrainer := basePre, inspect := baseInspect,
    historyTrimmed := false }

/-- A trivial engine: stepping changes nothing and fires no hooks. -/
def idleEngine : Engine :=
  { simgrStepFn := fun g => g
    simgrHookStates := fun _ => []
    fullStep := fun _ => { events := [], hookStates := [], flat := [], unconstrained := [] }
    numInstStep := fun _ _ => { events := [], hookStates := [], flat := [], unconstrained := [] }
    satisfiable := fun _ => true }

/-- An engine whose stepping operations always produce one concrete
successor and fire no hooks, so that a windup run completes. -/
def succEngine : Engine :=
  { simgrStepFn := fun g => g
    simgrHookStates := fun _ => []
    fullStep := fun _ =>
      { events := [], hookStates := [], flat := [baseState], unconstrained := [] }
    numInstStep := fun _ _ =>
      { events := [], hookStates := [], flat := [baseState], unconstrained := [] }
    satisfiable := fun _ => true }

/-- A state whose instruction pointer resolves to symbolic memory and which
carries the `state_step` breakpoint: when the classifier hook observes it,
`EXEC_STACK` is classified. -/
def symHookState : SimState :=
  { baseState with ipMemSymbolic := true, breakpoints := [BPEvent.stateStep] }

/-- An engine like `succEngine` whose full steps additionally let the
`state_step` action observe `symHookState`. -/
def symHookEngine : Engine :=
  { simgrStepFn := fun g => g
    simgrHookStates := fun _ => []
    fullStep := fun _ =>
      { events := [], hookStates := [symHookState], flat := [baseState], unconstrained := [] }
    numInstStep := fun _ _ =>
      { events := [], hookStates := [], flat := [baseState], unconstrained := [] }
    satisfiable := fun _ => true }

/-- A monitor in crash mode whose trace is exhausted, before classification. -/
def monC1 : CrashMonitor :=
  { CrashMonitor.init [] true true none with last_state := some baseState }

/-- A one-path simulation manager over the minimal state. -/
def grBase : SimGr := { active := [baseState], stashes := [] }

/-- A monitor classified `EXEC_STACK` with a captured crash state. -/
def monExec : CrashMonitor :=
  { CrashMonitor.init [4096] true true none with
      crash_type := some CrashType.EXEC_STACK, crash_state := some symHookState,
      last_state := some baseState }

/-- A monitor classified `QEMU_CRASH` with a non-empty trace, ready for
windup. -/
def monSeg : CrashMonitor :=
  { CrashMonitor.init [4096] true true none with
      crash_type := some CrashType.QEMU_CRASH, last_state := some baseState }

/-- A state carrying a pending concretization event with candidates but no
registered constrained address: the post-resolution hook matches nothing. -/
def eventState : SimState :=
  { baseState with inspect :=
    { address_concretization_expr := { id := 7, varNames := ["addr_var"] },
      address_concretization_result := some [5] } }

/-- A state with one registered constrained address whose event expression
has a stdin-file variable with fewer than four underscore-separated fields:
`_to_indices` raises `IndexError` before the loop's unbound `self` is
reached. -/
def shortNameState : SimState :=
  { baseState with
      preconstrainer := { basePre with constrained_addrs := [{ addrVariables := [] }] },
      inspect :=
        { address_concretization_expr := { id := 3, varNames := ["file_/dev/stdin"] },
          address_concretization_result := some [9] } }

/-- A state with one registered constrained address and no variables on the
event expression: `_to_indices` succeeds (with an empty index list) and the
loop raises `NameError` on its first iteration. -/
def noVarState : SimState :=
  { baseState with
      preconstrainer := { basePre with constrained_addrs := [{ addrVariables := ["x"] }] } }

/-- A windup input state with two recorded concretization events (one with
candidates, one without), used to exercise the constraint loop. -/
def concState : SimState :=
  { baseState with preconstrainer :=
    { basePre with address_concretization :=
      [({ id := 1, varNames := [] }, [16, 32]), ({ id := 2, varNames := [] }, [])] } }

/-- A concrete architecture collaborator whose return emulation always has
exactly one exit. -/
def oneExitArch : SArch :=
  { mkIRSB := fun _ _ _ => 0, symbolicIRSB := fun _ _ => 0,
    copyAfter := fun s => s, exitsOf := fun _ => [7] }

/-- The result of a concrete successful windup run, used to exhibit witnesses. -/
def windupRunResult : Except PyErr (CrashMonitor × SimState) :=
  CrashMonitor.crash_windup succEngine monSeg

/-- The monitor component of `windupRunResult` (defaulting on error). -/
def windupRunMonitor : CrashMonitor :=
  match windupRunResult with
  | Except.ok (mo, _) => mo
  | Except.error _ => monSeg

/-- The state component of `windupRunResult` (defaulting on error). -/
def windupRunState : SimState :=
  match windupRunResult with
  | Except.ok (_, so) => so
  | Except.error _ => baseState

/-! Helper lemmas about hook firing and list utilities. -/

theorem check_stack_windup_count (m : CrashMonitor) (s : SimState) :
    (CrashMonitor.check_stack m s).windup_count = m.windup_count := by
  unfold CrashMonitor.check_stack
  split <;> rfl

theorem check_stack_crash_type (m : CrashMonitor) (s : SimState) :
    (CrashMonitor.check_stack m s).crash_type = m.crash_type ∨
      (CrashMonitor.check_stack m s).crash_type = some CrashType.EXEC_STACK := by
  unfold CrashMonitor.check_stack
  split
  · exact Or.inr rfl
  · exact Or.inl rfl

theorem check_stack_config (m : CrashMonitor) (s : SimState) :
    (CrashMonitor.check_stack m s).trace = m.trace ∧
      (CrashMonitor.check_stack m s).crash_mode = m.crash_mode ∧
      (CrashMonitor.check_stack m s).last_state = m.last_state := by
  unfold CrashMonitor.check_stack
  split <;> exact ⟨rfl, rfl, rfl⟩

theorem fireSimgrHookStates_cons (m : CrashMonitor) (s : SimState) (t : List SimState) :
    fireSimgrHookStates m (s :: t) =
      fireSimgrHookStates
        (if BPEvent.stateStep ∈ s.breakpoints then CrashMonitor.check_stack m s else m) t := rfl

theorem fireSimgrHookStates_windup_count (hs : List SimState) :
    ∀ m : CrashMonitor, (fireSimgrHookStates m hs).windup_count = m.windup_count := by
  induction hs with
  | nil => intro m; rfl
  | cons s t ih =>
    intro m
    rw [fireSimgrHookStates_cons, ih]
    split
    · exact check_stack_windup_count m s
    · rfl

theorem fireSimgrHookStates_crash_type (hs : List SimState) :
    ∀ m : CrashMonitor, (fireSimgrHookStates m hs).crash_type = m.crash_type ∨
      (fireSimgrHookStates m hs).crash_type = some CrashType.EXEC_STACK := by
  induction hs with
  | nil => intro m; exact Or.inl rfl
  | cons s t ih =>
    intro m
    rw [fireSimgrHookStates_cons]
    split
    · rcases ih (CrashMonitor.check_stack m s) with h | h
      · rw [h]; exact check_stack_crash_type m s
      · exact Or.inr h
    · exact ih m

theorem fireSimgrHookStates_exec_stack (hs : List SimState) :
    ∀ m : CrashMonitor, m.crash_type = some CrashType.EXEC_STACK →
      (fireSimgrHookStates m hs).crash_type = some CrashType.EXEC_STACK := by
  intro m hm
  rcases fireSimgrHookStates_crash_type hs m with h | h
  · rw [h, hm]
  · exact h

theorem fireStepHooks_ok (m : CrashMonitor) (s : SimState) (obs : StepObs)
    (m' : CrashMonitor) (h : fireStepHooks m s obs = Except.ok m') :
    m' = fireSimgrHookStates m obs.hookStates := by
  unfold fireStepHooks at h
  rcases hev : fireConcEvents s obs.events with e | u
  · rw [hev] at h; exact absurd h (by simp)
  · rw [hev] at h
    exact (Except.ok.injEq _ _).mp h.symm

theorem fireStepHooks_windup_count (m : CrashMonitor) (s : SimState) (obs : StepObs)
    (m' : CrashMonitor) (h : fireStepHooks m s obs = Except.ok m') :
    m'.windup_count = m.windup_count := by
  rw [fireStepHooks_ok m s obs m' h]
  exact fireSimgrHookStates_windup_count obs.hookStates m

theorem fireStepHooks_crash_type (m : CrashMonitor) (s : SimState) (obs : StepObs)
    (m' : CrashMonitor) (h : fireStepHooks m s obs = Except.ok m') :
    m'.crash_type = m.crash_type ∨ m'.crash_type = some CrashType.EXEC_STACK := by
  rw [fireStepHooks_ok m s obs m' h]
  exact fireSimgrHookStates_crash_type obs.hookStates m

theorem removeBpList_append_not_mem (b : BPEvent) (l r : List BPEvent) (h : b ∉ l) :
    removeBpList (l ++ b :: r) b = l ++ r := by
  induction l with
  | nil => simp [removeBpList]
  | cons a t ih =>
    have hab : ¬ (a = b) := fun hc => h (hc ▸ List.mem_cons_self a t)
    have ht : b ∉ t := fun hc => h (List.mem_cons_of_mem a hc)
    show (if a = b then t ++ b :: r else a :: removeBpList (t ++ b :: r) b) = a :: (t ++ r)
    rw [if_neg hab, ih ht]

theorem applyConcLoop_breakpoints (l : List (AExpr × List Nat)) :
    ∀ s : SimState, (applyConcLoop s l).breakpoints = s.breakpoints := by
  induction l with
  | nil => intro s; rfl
  | cons p t ih =>
    intro s
    rcases p with ⟨var, vals⟩
    cases vals with
    | nil => exact ih s
    | cons v vs => exact ih (s.add_constraints (SimConstraint.eq var v))

theorem applyConcLoop_constraints (l : List (AExpr × List Nat)) :
    ∀ s : SimState, (applyConcLoop s l).constraints =
      s.constraints ++ l.filterMap
        (fun p => match p.2 with
          | [] => none
          | v :: _ => some (SimConstraint.eq p.1 v)) := by
  induction l with
  | nil => intro s; simp [applyConcLoop]
  | cons p t ih =>
    intro s
    rcases p with ⟨var, vals⟩
    cases vals with
    | nil => simp only [applyConcLoop, ih s, List.filterMap_cons]
    | cons v vs =>
      rw [show applyConcLoop s ((var, v :: vs) :: t) =
            applyConcLoop (s.add_constraints (SimConstraint.eq var v)) t from rfl,
        ih (s.add_constraints (SimConstraint.eq var v))]
      simp [SimState.add_constraints, List.filterMap_cons, List.append_assoc]

theorem getLast?_of_ne_nil {α : Type} (l : List α) (h : l ≠ []) :
    ∃ a, l.getLast? = some a := by
  cases l with
  | nil => exact absurd rfl h
  | cons x t => exact ⟨(x :: t).getLast (by simp), List.getLast?_eq_getLast _ _⟩

theorem indexOf_eq_of_get? (l : List Nat) :
    ∀ (i : Nat) (a : Nat), l.Nodup → l.get? i = some a → l.indexOf a = i := by
  induction l with
  | nil => intro i a _ h; simp at h
  | cons b t ih =>
    intro i a hn hg
    rcases List.nodup_cons.mp hn with ⟨hbt, hnt⟩
    cases i with
    | zero =>
      simp only [List.get?] at hg
      cases hg
      simp [List.indexOf_cons_self]
    | succ j =>
      simp only [List.get?] at hg
      have hmem : a ∈ t := List.get?_mem hg
      have hba : b ≠ a := fun hc => hbt (hc ▸ hmem)
      have : (b :: t).indexOf a = t.indexOf a + 1 := by
        simp [List.indexOf_cons, beq_iff_eq, hba]
      rw [this, ih j a hnt hg]

/-- Claim C3: in windup, the precise step executes 0 instructions for a block
with no instructions, i+1 instructions when the configured crash address
occurs at index i of the block's instruction-address list, and (block length
minus 1) instructions when the crash address is absent from that list. -/
theorem windup_inst_count_selection (l : List Nat) (c : Option Nat) :
    (l = [] → windupInstCount l c = 0) ∧
    (∀ a i, c = some a → l.Nodup → l.get? i = some a → windupInstCount l c = i + 1) ∧
    ((∀ a, c = some a → a ∉ l) → windupInstCount l c = l.length - 1) := by
  refine ⟨?_, ?_, ?_⟩
  · intro h
    subst h
    rfl
  · intro a i hc hn hg
    subst hc
    have hmem : a ∈ l := List.get?_mem hg
    have hlen : ¬ l.length = 0 := by
      cases l with
      | nil => simp at hg
      | cons x t => simp
    unfold windupInstCount
    rw [if_neg hlen]
    show (if a ∈ l then l.indexOf a + 1 else l.length - 1) = i + 1
    rw [if_pos hmem, indexOf_eq_of_get? l i a hn hg]
  · intro h
    unfold windupInstCount
    by_cases hlen : l.length = 0
    · rw [if_pos hlen]
      omega
    · rw [if_neg hlen]
      cases c with
      | none => rfl
      | some a =>
        show (if a ∈ l then l.indexOf a + 1 else l.length - 1) = l.length - 1
        rw [if_neg (h a rfl)]

/-- Witness for `windup_inst_count_selection`: a two-instruction block whose
crash address sits at index 1 yields a precise step of 2 instructions. -/
theorem windup_inst_count_selection_witness :
    windupInstCount [4096, 4102] (some 4102) = 1 + 1 :=
  (windup_inst_count_selection [4096, 4102] (some 4102)).2.1 4102 1 rfl (by decide) rfl

/-- Claim C10: `emulate_subroutine` raises `SymbolicArchError` exactly when
emulating the injected return instruction yields a number of exits other than
one, and otherwise returns that single exit; the `Except` result has no
recovery path in this layer, so the error propagates to the caller. -/
theorem emulate_subroutine_single_exit (A : SArch) (im : IMark) (st : Nat) :
    (∀ e, retExits A im st = [e] → emulate_subroutine A im st = Except.ok e) ∧
    ((retExits A im st).length ≠ 1 → emulate_subroutine A im st =
      Except.error { msg := "Return has more than one exit. This is unsupported." }) := by
  constructor
  · intro e h
    simp [emulate_subroutine, h]
  · intro h
    simp [emulate_subroutine, h]

/-- Witness for `emulate_subroutine_single_exit`: with a collaborator whose
return emulation has exactly one exit, that exit is returned. -/
theorem emulate_subroutine_single_exit_witness :
    emulate_subroutine oneExitArch { addr := 4096 } 0 = Except.ok 7 :=
  (emulate_subroutine_single_exit oneExitArch { addr := 4096 } 0).1 7 rfl

/-- Claim C6 counterexample: on a state with a pending concretization event
carrying the candidate list `[5]` and no registered constrained address, the
post-resolution hook completes without recording the (expression, candidates)
pair, refuting the claim that it records every event unconditionally. -/
theorem grab_results_conditional_counterexample :
    ¬ ∃ r, CrashMonitor.grab_concretization_results [] eventState = Except.ok r ∧
      (eventState.inspect.address_concretization_expr, [5]) ∈ r := by
  rintro ⟨r, hr, hm⟩
  have hev : CrashMonitor.grab_concretization_results [] eventState = Except.ok [] := rfl
  rw [hev] at hr
  cases hr
  simp at hm

/-- Claim C6 (amended): the post-resolution hook records a pair only when the
matching helper `_add_constraints` returns true; since that helper never
returns true and the append itself names the unbound `self`, every successful
run of the hook leaves the recording list unchanged. -/
theorem grab_results_never_appends (recorded : List (AExpr × List Nat)) (s : SimState)
    (r : List (AExpr × List Nat))
    (h : CrashMonitor.grab_concretization_results recorded s = Except.ok r) : r = recorded := by
  unfold CrashMonitor.grab_concretization_results at h
  rcases hac : CrashMonitor.add_constraints s with e | b
  · rw [hac] at h
    have h2 : (Except.error e : Except PyErr (List (AExpr × List Nat))) = Except.ok r := h
    cases h2
  · rw [hac] at h
    cases b with
    | false =>
      have h2 : (Except.ok recorded : Except PyErr (List (AExpr × List Nat))) = Except.ok r := h
      cases h2
      rfl
    | true =>
      rcases hres : s.inspect.address_concretization_result with _ | v
      · rw [hres] at h
        have h2 : (Except.ok recorded : Except PyErr (List (AExpr × List Nat))) = Except.ok r := h
        cases h2
        rfl
      · rw [hres] at h
        have h2 : (Except.error PyErr.nameError :
            Except PyErr (List (AExpr × List Nat))) = Except.ok r := h
        cases h2

/-- Witness for `grab_results_never_appends`: a successful hook run on a
one-element recording list returns that list unchanged. -/
theorem grab_results_never_appends_witness :
    ([({ id := 9, varNames := [] }, [1])] : List (AExpr × List Nat)) =
      [({ id := 9, varNames := [] }, [1])] :=
  grab_results_never_appends [({ id := 9, varNames := [] }, [1])] baseState
    [({ id := 9, varNames := [] }, [1])] rfl

/-- Claim C9 counterexample: on a state with one registered constrained
address whose event variable `file_/dev/stdin` has fewer than four
underscore-separated fields, `_add_constraints` raises `IndexError` (from
`_to_indices`) rather than the claimed `NameError`. -/
theorem add_constraints_not_nameerror_counterexample :
    shortNameState.preconstrainer.constrained_addrs ≠ [] ∧
    CrashMonitor.add_constraints shortNameState = Except.error PyErr.indexError ∧
    PyErr.indexError ≠ PyErr.nameError := by
  refine ⟨by decide, rfl, by decide⟩

/-- Claim C9 (amended): whenever `_to_indices` itself succeeds on the event
expression's variables, a state with at least one registered constrained
address makes `_add_constraints` raise `NameError` (the static method names
the unbound `self`), so both interception hooks fail on such states and the
post-resolution hook never appends an event. -/
theorem add_constraints_nameerror_when_indices_ok (s : SimState) (ix : List Int)
    (hti : CrashMonitor.to_indices s.inspect.address_concretization_expr.varNames =
      Except.ok ix)
    (hc : s.preconstrainer.constrained_addrs ≠ []) :
    CrashMonitor.add_constraints s = Except.error PyErr.nameError ∧
    CrashMonitor.dont_add_constraints s = Except.error PyErr.nameError ∧
    ∀ recorded, CrashMonitor.grab_concretization_results recorded s =
      Except.error PyErr.nameError := by
  have hadd : CrashMonitor.add_constraints s = Except.error PyErr.nameError := by
    unfold CrashMonitor.add_constraints
    rw [hti]
    rcases hcc : s.preconstrainer.constrained_addrs with _ | ⟨a, t⟩
    · exact absurd hcc hc
    · rfl
  refine ⟨hadd, ?_, ?_⟩
  · unfold CrashMonitor.dont_add_constraints
    exact hadd
  · intro recorded
    unfold CrashMonitor.grab_concretization_results
    rw [hadd]
    rfl

/-- Witness for `add_constraints_nameerror_when_indices_ok`: a state with one
constrained address and no variables on the event expression raises
`NameError`. -/
theorem add_constraints_nameerror_when_indices_ok_witness :
    CrashMonitor.add_constraints noVarState = Except.error PyErr.nameError :=
  (add_constraints_nameerror_when_indices_ok noVarState [] rfl (by decide)).1

/-- Claim C7: after the single full block-step of windup, every recorded
concretization entry with a non-empty candidate list contributes the equality
constraint binding its expression to its first candidate, appended in the
entries' encounter order; and windup continues from exactly that constrained
state (so the constraints are in place before the remaining instructions of
the block are executed by `windupAfterBlockStep`). -/
theorem windup_constraints_in_encounter_order (s : SimState) :
    ((applyConcretizationConstraints s).constraints =
      s.constraints ++ s.preconstrainer.address_concretization.filterMap
        (fun p => match p.2 with
          | [] => none
          | v :: _ => some (SimConstraint.eq p.1 v))) ∧
    (∀ (E : Engine) (m m1 : CrashMonitor) (st : SimState),
      m.last_state = some st →
      fireStepHooks { m with windup_count := m.windup_count + 1 }
        (installConcBreakpoints st) (E.fullStep (installConcBreakpoints st)) =
        Except.ok m1 →
      CrashMonitor.crash_windup E m =
        windupAfterBlockStep E m1 m.crash_addr
          (applyConcretizationConstraints (installConcBreakpoints st))) := by
  constructor
  · exact applyConcLoop_constraints s.preconstrainer.address_concretization s
  · intro E m m1 st hls hfire
    obtain ⟨tr, th, cm, ca, ls, ct, cs, wc⟩ := m
    dsimp only at hls hfire ⊢
    subst hls
    show (match fireStepHooks ⟨tr, th, cm, ca, some st, ct, cs, wc + 1⟩
        (installConcBreakpoints st) (E.fullStep (installConcBreakpoints st)) with
      | Except.error e => Except.error e
      | Except.ok mm => windupAfterBlockStep E mm ca
          (applyConcretizationConstraints (installConcBreakpoints st))) =
      windupAfterBlockStep E m1 ca (applyConcretizationConstraints (installConcBreakpoints st))
    rw [hfire]

/-- Witness for `windup_constraints_in_encounter_order`: a state with two
recorded events, one carrying candidates `[16, 32]` and one carrying none,
gains exactly the constraint for the first candidate of the first event; and
a concrete windup run factors through the constrained state. -/
theorem windup_constraints_in_encounter_order_witness :
    ((applyConcretizationConstraints concState).constraints =
      concState.constraints ++ [SimConstraint.eq { id := 1, varNames := [] } 16]) ∧
    CrashMonitor.crash_windup succEngine monSeg =
      windupAfterBlockStep succEngine { monSeg with windup_count := 1 } none
        (applyConcretizationConstraints (installConcBreakpoints baseState)) :=
  ⟨(windup_constraints_in_encounter_order concState).1,
   (windup_constraints_in_encounter_order concState).2 succEngine monSeg
     { monSeg with windup_count := 1 } baseState rfl rfl⟩

/-- Reduction of `CrashMonitor.step` on a one-path manager to its three
branches. -/
theorem step_eq (E : Engine) (m : CrashMonitor) (s : SimState)
    (gst : List (String × List (Option SimState))) :
    CrashMonitor.step E m { active := [s], stashes := gst } =
      (if (CrashMonitor.stepMid E m
            { active := [CrashMonitor.trimmedState m s], stashes := gst }
            (CrashMonitor.trimmedState m s)).crash_type = some CrashType.EXEC_STACK then
        { simgr := E.simgrStepFn { active := [CrashMonitor.trimmedState m s], stashes := gst },
          monitor := CrashMonitor.stepMid E m
            { active := [CrashMonitor.trimmedState m s], stashes := gst }
            (CrashMonitor.trimmedState m s),
          engineSteps := 1 }
      else if m.trace.length ≤ (CrashMonitor.trimmedState m s).bb_cnt ∧ m.crash_mode = true then
        { simgr := E.simgrStepFn
            (E.simgrStepFn { active := [CrashMonitor.trimmedState m s], stashes := gst }),
          monitor := { fireSimgrHookStates
              (CrashMonitor.stepMid E m
                { active := [CrashMonitor.trimmedState m s], stashes := gst }
                (CrashMonitor.trimmedState m s))
              (E.simgrHookStates
                (E.simgrStepFn { active := [CrashMonitor.trimmedState m s], stashes := gst }))
            with crash_type := some CrashType.QEMU_CRASH },
          engineSteps := 2 }
      else
        { simgr := E.simgrStepFn { active := [CrashMonitor.trimmedState m s], stashes := gst },
          monitor := CrashMonitor.stepMid E m
            { active := [CrashMonitor.trimmedState m s], stashes := gst }
            (CrashMonitor.trimmedState m s),
          engineSteps := 1 }) := rfl

/-- Claim C1: in crash mode, on a `step()` call with exactly one active path
and no classification yet, `QEMU_CRASH` (SegFault) is classified exactly when
the recorded path's block counter has reached the trace length and the
classification after the call's first engine step is not `EXEC_STACK`; and
the call performs exactly one additional forced engine step precisely when it
classifies SegFault. -/
theorem step_segfault_exactly_at_trace_end (E : Engine) (m : CrashMonitor) (g : SimGr)
    (s : SimState) (hact : g.active = [s]) (hmode : m.crash_mode = true)
    (hnone : m.crash_type = none) :
    ((CrashMonitor.step E m g).monitor.crash_type = some CrashType.QEMU_CRASH ↔
      m.trace.length ≤ (CrashMonitor.trimmedState m s).bb_cnt ∧
        (CrashMonitor.stepMid E m { g with active := [CrashMonitor.trimmedState m s] }
          (CrashMonitor.trimmedState m s)).crash_type ≠ some CrashType.EXEC_STACK) ∧
    ((CrashMonitor.step E m g).monitor.crash_type = some CrashType.QEMU_CRASH →
      (CrashMonitor.step E m g).engineSteps = 2) ∧
    ((CrashMonitor.step E m g).monitor.crash_type ≠ some CrashType.QEMU_CRASH →
      (CrashMonitor.step E m g).engineSteps = 1) := by
  obtain ⟨ga, gst⟩ := g
  dsimp only at hact
  subst hact
  rw [step_eq E m s gst]
  set mMid := CrashMonitor.stepMid E m
    { active := [CrashMonitor.trimmedState m s], stashes := gst }
    (CrashMonitor.trimmedState m s) with hmid
  by_cases h1 : mMid.crash_type = some CrashType.EXEC_STACK
  · rw [if_pos h1]
    refine ⟨⟨fun hq => ?_, fun hrhs => absurd h1 hrhs.2⟩, fun hq => ?_, fun _ => rfl⟩
    · have hq2 : mMid.crash_type = some CrashType.QEMU_CRASH := hq
      rw [h1] at hq2
      exact absurd hq2 (by simp)
    · have hq2 : mMid.crash_type = some CrashType.QEMU_CRASH := hq
      rw [h1] at hq2
      exact absurd hq2 (by simp)
  · have hnq : mMid.crash_type ≠ some CrashType.QEMU_CRASH := by
      have hbase : mMid.crash_type = m.crash_type ∨
          mMid.crash_type = some CrashType.EXEC_STACK := by
        rw [hmid]
        exact fireSimgrHookStates_crash_type
          (E.simgrHookStates { active := [CrashMonitor.trimmedState m s], stashes := gst })
          { m with last_state := some (CrashMonitor.trimmedState m s) }
      rcases hbase with hh | hh
      · rw [hh, hnone]
        simp
      · exact absurd hh h1
    by_cases h2 : m.trace.length ≤ (CrashMonitor.trimmedState m s).bb_cnt
    · rw [if_neg h1, if_pos (And.intro h2 hmode)]
      exact ⟨⟨fun _ => ⟨h2, h1⟩, fun _ => rfl⟩, fun _ => rfl, fun hne => absurd rfl hne⟩
    · have hcond : ¬ (m.trace.length ≤ (CrashMonitor.trimmedState m s).bb_cnt ∧
          m.crash_mode = true) := fun hcontra => h2 hcontra.1
      rw [if_neg h1, if_neg hcond]
      refine ⟨⟨fun hq => absurd hq hnq, fun hrhs => absurd hrhs.1 h2⟩,
        fun hq => absurd hq hnq, fun _ => rfl⟩

/-- Witness for `step_segfault_exactly_at_trace_end`: a crash-mode monitor
with an exhausted (empty) trace classifies SegFault on the next step and
performs two engine steps. -/
theorem step_segfault_exactly_at_trace_end_witness :
    (CrashMonitor.step idleEngine monC1 grBase).monitor.crash_type =
      some CrashType.QEMU_CRASH ∧
    (CrashMonitor.step idleEngine monC1 grBase).engineSteps = 2 := by
  have h := step_segfault_exactly_at_trace_end idleEngine monC1 grBase baseState rfl rfl rfl
  have hq : (CrashMonitor.step idleEngine monC1 grBase).monitor.crash_type =
      some CrashType.QEMU_CRASH := h.1.mpr ⟨by decide, by decide⟩
  exact ⟨hq, h.2.1 hq⟩

/-- Claim C5 counterexample: on a normal crash-mode run the classification is
not write-once.  Starting from a `QEMU_CRASH` (SegFault) classification, a
`complete()` call whose windup steps let the classifier observe a state with
symbolic instruction-pointer memory ends with the classification rewritten to
`EXEC_STACK`: the terminal SegFault state is left. -/
theorem segfault_overwritten_by_execstack_counterexample :
    monSeg.crash_type = some CrashType.QEMU_CRASH ∧
    (CrashMonitor.complete symHookEngine monSeg grBase).map
      (fun r => r.2.1.crash_type) = Except.ok (some CrashType.EXEC_STACK) :=
  ⟨rfl, rfl⟩

/-- Claim C5 (amended): `EXEC_STACK` is terminal — once classified, neither
`step()` nor `complete()` changes it (the classifier hook can only re-assert
`EXEC_STACK`, and `complete()` skips windup for `EXEC_STACK`).  The SegFault
half of the original claim fails, per the counterexample. -/
theorem execstack_classification_sticky (E : Engine) (m : CrashMonitor) (g : SimGr)
    (h : m.crash_type = some CrashType.EXEC_STACK) :
    (CrashMonitor.step E m g).monitor.crash_type = some CrashType.EXEC_STACK ∧
    (∀ b m2 g2, CrashMonitor.complete E m g = Except.ok (b, m2, g2) →
      m2.crash_type = some CrashType.EXEC_STACK) := by
  constructor
  · obtain ⟨ga, gst⟩ := g
    rcases ga with _ | ⟨s, rest⟩
    · exact h
    · rcases rest with _ | ⟨s2, rest2⟩
      · have hmid : (CrashMonitor.stepMid E m
            { active := [CrashMonitor.trimmedState m s], stashes := gst }
            (CrashMonitor.trimmedState m s)).crash_type = some CrashType.EXEC_STACK := by
          unfold CrashMonitor.stepMid
          exact fireSimgrHookStates_exec_stack _ _ h
        rw [step_eq E m s gst, if_pos hmid]
        exact hmid
      · exact h
  · intro b m2 g2 hc
    unfold CrashMonitor.complete at hc
    rw [h] at hc
    have hc2 : (Except.ok (true, m,
        { g with stashes := setStash g.stashes "crashed" [m.crash_state] }) :
        Except PyErr (Bool × CrashMonitor × SimGr)) = Except.ok (b, m2, g2) := hc
    cases hc2
    exact h

/-- Witness for `execstack_classification_sticky`: an `EXEC_STACK`-classified
monitor keeps its classification across a `step()` and a `complete()` call. -/
theorem execstack_classification_sticky_witness :
    (CrashMonitor.step idleEngine monExec grBase).monitor.crash_type =
      some CrashType.EXEC_STACK ∧
    monExec.crash_type = some CrashType.EXEC_STACK :=
  ⟨(execstack_classification_sticky idleEngine monExec grBase rfl).1,
   (execstack_classification_sticky idleEngine monExec grBase rfl).2 true monExec
     { grBase with stashes := setStash grBase.stashes "crashed" [some symHookState] } rfl⟩

theorem crash_type_step_trans {a b c : Option CrashType}
    (h1 : a = b ∨ a = some CrashType.EXEC_STACK)
    (h2 : b = c ∨ b = some CrashType.EXEC_STACK) :
    a = c ∨ a = some CrashType.EXEC_STACK := by
  rcases h1 with h1 | h1
  · rcases h2 with h2 | h2
    · exact Or.inl (h1.trans h2)
    · exact Or.inr (h1.trans h2)
  · exact Or.inr h1

theorem windupSelectSuccessor_ok (E : Engine) (m : CrashMonitor) (state1 : SimState)
    (succs : List SimState) (m3 : CrashMonitor) (stA : SimState)
    (h : windupSelectSuccessor E m state1 succs = Except.ok (m3, stA)) :
    (stA = state1 ∨ stA ∈ succs) ∧ m3.windup_count = m.windup_count ∧
      m3.crash_type = m.crash_type := by
  unfold windupSelectSuccessor at h
  by_cases h0 : 0 < succs.length
  · rw [if_pos h0] at h
    rcases hs2 : (if 1 < succs.length then succs.filter (fun x => E.satisfiable x)
        else succs) with _ | ⟨s1, t⟩
    · rw [hs2] at h
      have h2 : (Except.error PyErr.indexError :
          Except PyErr (CrashMonitor × SimState)) = Except.ok (m3, stA) := h
      cases h2
    · rw [hs2] at h
      have h2 : (Except.ok ({ m with last_state := some s1 }, s1) :
          Except PyErr (CrashMonitor × SimState)) = Except.ok (m3, stA) := h
      have hP := Except.ok.inj h2
      have hm3 : m3 = { m with last_state := some s1 } := (congrArg Prod.fst hP).symm
      have hstA : stA = s1 := (congrArg Prod.snd hP).symm
      have hmem : s1 ∈ (if 1 < succs.length then succs.filter (fun x => E.satisfiable x)
          else succs) := by
        rw [hs2]
        exact List.mem_cons_self s1 t
      have hmem2 : s1 ∈ succs := by
        by_cases h1 : 1 < succs.length
        · rw [if_pos h1] at hmem
          exact List.mem_of_mem_filter hmem
        · rw [if_neg h1] at hmem
          exact hmem
      refine ⟨Or.inr ?_, ?_, ?_⟩
      · rw [hstA]
        exact hmem2
      · rw [hm3]
      · rw [hm3]
  · rw [if_neg h0] at h
    have h2 : (Except.ok (m, state1) :
        Except PyErr (CrashMonitor × SimState)) = Except.ok (m3, stA) := h
    cases h2
    exact ⟨Or.inl rfl, rfl, rfl⟩

theorem windupFinalStep_ok (E : Engine) (m : CrashMonitor) (stateC : SimState)
    (mOut : CrashMonitor) (sOut : SimState)
    (h : windupFinalStep E m stateC = Except.ok (mOut, sOut)) :
    sOut.breakpoints = stateC.breakpoints ∧ mOut.windup_count = m.windup_count ∧
      (mOut.crash_type = m.crash_type ∨ mOut.crash_type = some CrashType.EXEC_STACK) := by
  unfold windupFinalStep at h
  rcases hf : fireStepHooks m stateC (E.fullStep stateC) with e | m4
  · rw [hf] at h
    have h2 : (Except.error e : Except PyErr (CrashMonitor × SimState)) =
      Except.ok (mOut, sOut) := h
    cases h2
  · rw [hf] at h
    have h2 : (match (((E.fullStep stateC).flat ++ (E.fullStep stateC).unconstrained).map
        (fun t => { t with breakpoints := stateC.breakpoints })) with
      | [] => (Except.error PyErr.indexError : Except PyErr (CrashMonitor × SimState))
      | s1 :: _ => Except.ok (m4, s1)) = Except.ok (mOut, sOut) := h
    rcases hl : (((E.fullStep stateC).flat ++ (E.fullStep stateC).unconstrained).map
        (fun t => { t with breakpoints := stateC.breakpoints })) with _ | ⟨s1, t⟩
    · rw [hl] at h2
      have h3 : (Except.error PyErr.indexError :
          Except PyErr (CrashMonitor × SimState)) = Except.ok (mOut, sOut) := h2
      cases h3
    · rw [hl] at h2
      have h3 : (Except.ok (m4, s1) : Except PyErr (CrashMonitor × SimState)) =
        Except.ok (mOut, sOut) := h2
      have hP := Except.ok.inj h3
      have hm : mOut = m4 := (congrArg Prod.fst hP).symm
      have hs : sOut = s1 := (congrArg Prod.snd hP).symm
      have hmem : s1 ∈ (((E.fullStep stateC).flat ++ (E.fullStep stateC).unconstrained).map
          (fun t => { t with breakpoints := stateC.breakpoints })) := by
        rw [hl]
        exact List.mem_cons_self s1 t
      refine ⟨?_, ?_, ?_⟩
      · rw [hs]
        rcases List.mem_map.mp hmem with ⟨x, _, hx⟩
        rw [← hx]
      · rw [hm]
        exact fireStepHooks_windup_count m stateC _ m4 hf
      · rw [hm]
        exact fireStepHooks_crash_type m stateC _ m4 hf

theorem windupCleanupState_breakpoints (s : SimState) :
    (windupCleanupState s).breakpoints =
      removeBpList (removeBpList s.breakpoints BPEvent.addrConcBefore)
        BPEvent.addrConcAfter := rfl

theorem windupCleanupAndFinalStep_ok (E : Engine) (m3 : CrashMonitor) (stA : SimState)
    (mOut : CrashMonitor) (sOut : SimState)
    (h : windupCleanupAndFinalStep E (m3, stA) = Except.ok (mOut, sOut)) :
    sOut.breakpoints =
      removeBpList (removeBpList stA.breakpoints BPEvent.addrConcBefore)
        BPEvent.addrConcAfter ∧
    mOut.windup_count = m3.windup_count ∧
      (mOut.crash_type = m3.crash_type ∨ mOut.crash_type = some CrashType.EXEC_STACK) := by
  unfold windupCleanupAndFinalStep at h
  obtain ⟨hbp, hcnt, hct⟩ := windupFinalStep_ok E _ _ mOut sOut h
  exact ⟨hbp.trans (windupCleanupState_breakpoints stA), hcnt, hct⟩

theorem windupAfterBlockStep_ok (E : Engine) (m : CrashMonitor) (ca : Option Nat)
    (state1 : SimState) (mOut : CrashMonitor) (sOut : SimState)
    (h : windupAfterBlockStep E m ca state1 = Except.ok (mOut, sOut)) :
    mOut.windup_count = m.windup_count ∧
      (mOut.crash_type = m.crash_type ∨ mOut.crash_type = some CrashType.EXEC_STACK) ∧
      sOut.breakpoints =
        removeBpList (removeBpList state1.breakpoints BPEvent.addrConcBefore)
          BPEvent.addrConcAfter := by
  unfold windupAfterBlockStep at h
  rcases hf : fireStepHooks m state1
      (E.numInstStep state1 (windupInstCount state1.blockInstAddrs ca)) with e | m2
  · rw [hf] at h
    have h2 : (Except.error e : Except PyErr (CrashMonitor × SimState)) =
      Except.ok (mOut, sOut) := h
    cases h2
  · rw [hf] at h
    have h2 : (match windupSelectSuccessor E m2 state1
        ((E.numInstStep state1 (windupInstCount state1.blockInstAddrs ca)).flat.map
          (fun t => { t with breakpoints := state1.breakpoints })) with
      | Except.error e => (Except.error e : Except PyErr (CrashMonitor × SimState))
      | Except.ok p => windupCleanupAndFinalStep E p) = Except.ok (mOut, sOut) := h
    rcases hsel : windupSelectSuccessor E m2 state1
        ((E.numInstStep state1 (windupInstCount state1.blockInstAddrs ca)).flat.map
          (fun t => { t with breakpoints := state1.breakpoints })) with e | ⟨m3, stA⟩
    · rw [hsel] at h2
      have h3 : (Except.error e : Except PyErr (CrashMonitor × SimState)) =
        Except.ok (mOut, sOut) := h2
      cases h3
    · rw [hsel] at h2
      have h3 : windupCleanupAndFinalStep E (m3, stA) = Except.ok (mOut, sOut) := h2
      obtain ⟨hbp, hcnt4, hct4⟩ := windupCleanupAndFinalStep_ok E m3 stA mOut sOut h3
      obtain ⟨hA, hcnt3, hct3⟩ := windupSelectSuccessor_ok E m2 state1 _ m3 stA hsel
      have hAbp : stA.breakpoints = state1.breakpoints := by
        rcases hA with rfl | hmem
        · rfl
        · rcases List.mem_map.mp hmem with ⟨x, _, hx⟩
          rw [← hx]
      refine ⟨?_, ?_, ?_⟩
      · rw [hcnt4, hcnt3]
        exact fireStepHooks_windup_count m state1 _ m2 hf
      · refine crash_type_step_trans hct4 ?_
        refine crash_type_step_trans (Or.inl hct3) ?_
        exact fireStepHooks_crash_type m state1 _ m2 hf
      · rw [hbp, hAbp]

theorem crash_windup_ok (E : Engine) (m mOut : CrashMonitor) (sOut : SimState)
    (h : CrashMonitor.crash_windup E m = Except.ok (mOut, sOut)) :
    mOut.windup_count = m.windup_count + 1 ∧
      (mOut.crash_type = m.crash_type ∨ mOut.crash_type = some CrashType.EXEC_STACK) := by
  unfold CrashMonitor.crash_windup at h
  rcases hls : m.last_state with _ | st
  · rw [hls] at h
    have h2 : (Except.error PyErr.attributeError :
        Except PyErr (CrashMonitor × SimState)) = Except.ok (mOut, sOut) := h
    cases h2
  · rw [hls] at h
    have h2 : (match fireStepHooks
        { m with last_state := some st, windup_count := m.windup_count + 1 }
        (installConcBreakpoints st) (E.fullStep (installConcBreakpoints st)) with
      | Except.error e => (Except.error e : Except PyErr (CrashMonitor × SimState))
      | Except.ok m1 => windupAfterBlockStep E m1 m.crash_addr
          (applyConcretizationConstraints (installConcBreakpoints st))) =
        Except.ok (mOut, sOut) := h
    rcases hf : fireStepHooks { m with last_state := some st, windup_count := m.windup_count + 1 }
        (installConcBreakpoints st) (E.fullStep (installConcBreakpoints st)) with e | m1
    · rw [hf] at h2
      have h3 : (Except.error e : Except PyErr (CrashMonitor × SimState)) =
        Except.ok (mOut, sOut) := h2
      cases h3
    · rw [hf] at h2
      have h3 : windupAfterBlockStep E m1 m.crash_addr
          (applyConcretizationConstraints (installConcBreakpoints st)) =
          Except.ok (mOut, sOut) := h2
      obtain ⟨hcnt, hct, -⟩ := windupAfterBlockStep_ok E m1 m.crash_addr _ mOut sOut h3
      constructor
      · rw [hcnt]
        have hwc := fireStepHooks_windup_count _ _ _ m1 hf
        rw [hwc]
      · refine crash_type_step_trans hct ?_
        have hctf := fireStepHooks_crash_type _ _ _ m1 hf
        exact hctf

/-- Claim C8: both concretization breakpoints installed at the start of
windup are removed before windup returns, so on every successful windup run
(from a state carrying no pre-existing concretization breakpoints, as
`setup` installs only the `state_step` one) the returned state has no
residual `address_concretization` breakpoint registered. -/
theorem windup_removes_concretization_breakpoints (E : Engine) (m mOut : CrashMonitor)
    (sOut st : SimState) (hls : m.last_state = some st)
    (hb : BPEvent.addrConcBefore ∉ st.breakpoints)
    (ha : BPEvent.addrConcAfter ∉ st.breakpoints)
    (h : CrashMonitor.crash_windup E m = Except.ok (mOut, sOut)) :
    BPEvent.addrConcBefore ∉ sOut.breakpoints ∧
      BPEvent.addrConcAfter ∉ sOut.breakpoints := by
  unfold CrashMonitor.crash_windup at h
  rw [hls] at h
  have h2 : (match fireStepHooks
      { m with last_state := some st, windup_count := m.windup_count + 1 }
      (installConcBreakpoints st) (E.fullStep (installConcBreakpoints st)) with
    | Except.error e => (Except.error e : Except PyErr (CrashMonitor × SimState))
    | Except.ok m1 => windupAfterBlockStep E m1 m.crash_addr
        (applyConcretizationConstraints (installConcBreakpoints st))) =
      Except.ok (mOut, sOut) := h
  rcases hf : fireStepHooks { m with last_state := some st, windup_count := m.windup_count + 1 }
      (installConcBreakpoints st) (E.fullStep (installConcBreakpoints st)) with e | m1
  · rw [hf] at h2
    have h3 : (Except.error e : Except PyErr (CrashMonitor × SimState)) =
      Except.ok (mOut, sOut) := h2
    cases h3
  · rw [hf] at h2
    have h3 : windupAfterBlockStep E m1 m.crash_addr
        (applyConcretizationConstraints (installConcBreakpoints st)) =
        Except.ok (mOut, sOut) := h2
    obtain ⟨-, -, hbp⟩ := windupAfterBlockStep_ok E m1 m.crash_addr _ mOut sOut h3
    have hst1 : (applyConcretizationConstraints (installConcBreakpoints st)).breakpoints =
        st.breakpoints ++ [BPEvent.addrConcBefore, BPEvent.addrConcAfter] := by
      unfold applyConcretizationConstraints
      rw [applyConcLoop_breakpoints]
      show (st.breakpoints ++ [BPEvent.addrConcBefore]) ++ [BPEvent.addrConcAfter] =
        st.breakpoints ++ [BPEvent.addrConcBefore, BPEvent.addrConcAfter]
      rw [List.append_assoc]
      rfl
    rw [hst1] at hbp
    have hr1 : removeBpList
        (st.breakpoints ++ [BPEvent.addrConcBefore, BPEvent.addrConcAfter])
        BPEvent.addrConcBefore = st.breakpoints ++ [BPEvent.addrConcAfter] :=
      removeBpList_append_not_mem BPEvent.addrConcBefore st.breakpoints
        [BPEvent.addrConcAfter] hb
    rw [hr1] at hbp
    have hr2 : removeBpList (st.breakpoints ++ [BPEvent.addrConcAfter])
        BPEvent.addrConcAfter = st.breakpoints ++ [] :=
      removeBpList_append_not_mem BPEvent.addrConcAfter st.breakpoints [] ha
    rw [hr2, List.append_nil] at hbp
    rw [hbp]
    exact ⟨hb, ha⟩

/-- Witness for `windup_removes_concretization_breakpoints`: a concrete
successful windup run returns a state with no concretization breakpoint. -/
theorem windup_removes_concretization_breakpoints_witness :
    BPEvent.addrConcBefore ∉ windupRunState.breakpoints ∧
      BPEvent.addrConcAfter ∉ windupRunState.breakpoints :=
  windup_removes_concretization_breakpoints succEngine monSeg windupRunMonitor
    windupRunState baseState rfl (by decide) (by decide) rfl

/-- Claim C2: `complete()` returns false when no classification is set; with
an `EXEC_STACK` classification it returns true and populates the crashed
stash with exactly the classifier-captured state (no windup); with a
`QEMU_CRASH` classification, a non-empty trace and a successful windup, it
returns true and populates the crashed stash with exactly the windup
result. -/
theorem complete_returns_crash_stash (E : Engine) (m : CrashMonitor) (g : SimGr) :
    (m.crash_type = none → CrashMonitor.complete E m g = Except.ok (false, m, g)) ∧
    (∀ cs, m.crash_type = some CrashType.EXEC_STACK → m.crash_state = some cs →
      CrashMonitor.complete E m g = Except.ok (true, m,
        { g with stashes := setStash g.stashes "crashed" [some cs] })) ∧
    (∀ m1 st, m.crash_type = some CrashType.QEMU_CRASH → m.trace ≠ [] →
      CrashMonitor.crash_windup E m = Except.ok (m1, st) →
      CrashMonitor.complete E m g = Except.ok (true, { m1 with crash_state := some st },
        { g with stashes := setStash g.stashes "crashed" [some st] })) := by
  refine ⟨?_, ?_, ?_⟩
  · intro h
    unfold CrashMonitor.complete
    rw [h]
  · intro cs h hcs
    unfold CrashMonitor.complete
    rw [h, ← hcs]
    rfl
  · intro m1 st h htr hw
    unfold CrashMonitor.complete
    rw [h]
    show (match (match m.trace.getLast? with
        | none => (Except.error PyErr.indexError : Except PyErr CrashMonitor)
        | some _ =>
          match CrashMonitor.crash_windup E m with
          | Except.error e => Except.error e
          | Except.ok (m2, st2) => Except.ok { m2 with crash_state := some st2 }) with
      | Except.error e => (Except.error e : Except PyErr (Bool × CrashMonitor × SimGr))
      | Except.ok m2 => Except.ok (true, m2,
          { g with stashes := setStash g.stashes "crashed" [m2.crash_state] })) =
      Except.ok (true, { m1 with crash_state := some st },
        { g with stashes := setStash g.stashes "crashed" [some st] })
    rcases getLast?_of_ne_nil m.trace htr with ⟨x, hx⟩
    rw [hx, hw]

/-- Witness for `complete_returns_crash_stash`: with an `EXEC_STACK`
classification the crashed stash receives exactly the captured state. -/
theorem complete_returns_crash_stash_witness :
    CrashMonitor.complete succEngine monExec grBase = Except.ok (true, monExec,
      { grBase with stashes := setStash grBase.stashes "crashed" [some symHookState] }) :=
  (complete_returns_crash_stash succEngine monExec grBase).2.1 symHookState rfl rfl

/-- Claim C4 counterexample: with a SegFault classification, two consecutive
`complete()` calls both return true, and the second call re-runs windup (the
ghost windup counter reaches 2), refuting "windup is executed at most once
across repeated calls". -/
theorem complete_reruns_windup_counterexample :
    (CrashMonitor.complete succEngine monSeg grBase).bind
      (fun r1 => (CrashMonitor.complete succEngine r1.2.1 r1.2.2).map
        (fun r2 => (r1.1, r2.1, r2.2.1.windup_count))) = Except.ok (true, true, 2) ∧
    monSeg.windup_count = 0 := ⟨rfl, rfl⟩

/-- Claim C4 (amended): once a classification exists, every `complete()` call
returns true (given the trace access and windup succeed in the SegFault
branch) and the classification stays set, so repeated calls keep returning
true; windup is never run for `EXEC_STACK`, and is run exactly once on each
call made with a `QEMU_CRASH` classification — not at most once overall. -/
theorem complete_true_windup_once_per_call (E : Engine) (m : CrashMonitor) (g : SimGr) :
    (m.crash_type = some CrashType.EXEC_STACK →
      CrashMonitor.complete E m g = Except.ok (true, m,
        { g with stashes := setStash g.stashes "crashed" [m.crash_state] })) ∧
    (∀ m1 st, m.crash_type = some CrashType.QEMU_CRASH → m.trace ≠ [] →
      CrashMonitor.crash_windup E m = Except.ok (m1, st) →
      CrashMonitor.complete E m g = Except.ok (true, { m1 with crash_state := some st },
        { g with stashes := setStash g.stashes "crashed" [some st] }) ∧
      m1.windup_count = m.windup_count + 1 ∧
      ({ m1 with crash_state := some st }).crash_type ≠ none) := by
  constructor
  · intro h
    unfold CrashMonitor.complete
    rw [h]
    rfl
  · intro m1 st h htr hw
    refine ⟨?_, ?_, ?_⟩
    · unfold CrashMonitor.complete
      rw [h]
      show (match (match m.trace.getLast? with
          | none => (Except.error PyErr.indexError : Except PyErr CrashMonitor)
          | some _ =>
            match CrashMonitor.crash_windup E m with
            | Except.error e => Except.error e
            | Except.ok (m2, st2) => Except.ok { m2 with crash_state := some st2 }) with
        | Except.error e => (Except.error e : Except PyErr (Bool × CrashMonitor × SimGr))
        | Except.ok m2 => Except.ok (true, m2,
            { g with stashes := setStash g.stashes "crashed" [m2.crash_state] })) =
        Except.ok (true, { m1 with crash_state := some st },
          { g with stashes := setStash g.stashes "crashed" [some st] })
      rcases getLast?_of_ne_nil m.trace htr with ⟨x, hx⟩
      rw [hx, hw]
    · exact (crash_windup_ok E m m1 st hw).1
    · have hct := (crash_windup_ok E m m1 st hw).2
      show m1.crash_type ≠ none
      rcases hct with hh | hh
      · rw [hh, h]
        simp
      · rw [hh]
        simp

/-- Witness for `complete_true_windup_once_per_call`: a concrete SegFault
`complete()` call returns true and bumps the windup counter by one. -/
theorem complete_true_windup_once_per_call_witness :
    CrashMonitor.complete succEngine monSeg grBase = Except.ok (true,
      { windupRunMonitor with crash_state := some windupRunState },
      { grBase with stashes := setStash grBase.stashes "crashed" [some windupRunState] }) ∧
    windupRunMonitor.windup_count = monSeg.windup_count + 1 ∧
    ({ windupRunMonitor with crash_state := some windupRunState }).crash_type ≠ none :=
  (complete_true_windup_once_per_call succEngine monSeg grBase).2 windupRunMonitor
    windupRunState rfl (by decide) rfl
